import Mathlib

/-!
Verification of `src/colrev/ui_web/src/components/sources/SourcesEditor.tsx`.

The component edits a list of `Source` records and reports every change to a
parent through the `sourcesChanged` callback.  JavaScript object identity is
significant in this component (deletion filters by `!==`, edits mutate a
record in place and pass a shallow copy of the array upward), so the
embedding keeps an explicit heap: `Source` objects live in `sourceHeap`
and arrays of object references live in `arrayHeap`; a reference is the
index of the cell.  `[...xs]` (shallow copy) and `xs.filter` allocate a new
array cell; in-place mutation of a `Source` overwrites its heap cell.
Each handler returns the updated heap together with the list of array
references it passed to the `sourcesChanged` callback, in order.
-/

/-- Modelled from the spec: the `Script` model class (imported from
`../../models/script`) is not under `src/`; per the spec, a script is "an
opaque value passed through unchanged", so it is modelled as an opaque
wrapper around a number. -/
structure Script where
  val : Nat
deriving DecidableEq, Repr

/-- The nested scope object holding the `path` string, as read and written by
`searchParametersScopePathChangedHandler` (`source.searchParameters.scope.path`). -/
structure Scope where
  path : String
deriving DecidableEq, Repr

/-- The `searchParameters` object of a source, holding the nested `scope`. -/
structure SearchParameters where
  scope : Scope
deriving DecidableEq, Repr

/-- A source record with the fields the component binds: `filename`,
`searchType`, `sourceName`, `sourceIdentifier`, `comment`, the nested
`searchParameters.scope.path`, and `loadConversionScript`.  The script field
is optional because the nested script editor may assign `scripts[0]` of an
empty list, which is `undefined` in JavaScript. -/
structure Source where
  filename : String
  searchType : String
  sourceName : String
  sourceIdentifier : String
  comment : String
  searchParameters : SearchParameters
  loadConversionScript : Option Script
deriving DecidableEq, Repr

/-- Modelled from the spec: the `Source` model class constructed by
`new Source()` in `addSourceHandler` is not under `src/`; the spec says add
appends "a fresh default-valued source", so the constructor is modelled as
the record whose string fields are all empty and whose script is absent. -/
def Source.default : Source :=
  { filename := ""
    searchType := ""
    sourceName := ""
    sourceIdentifier := ""
    comment := ""
    searchParameters := { scope := { path := "" } }
    loadConversionScript := none }

/-- The string field names `fieldChangedHandler` is invoked with by the
component's input bindings: `"filename"`, `"searchType"`, `"sourceName"`,
`"sourceIdentifier"` and `"comment"`. -/
inductive FieldName where
  | filename
  | searchType
  | sourceName
  | sourceIdentifier
  | comment
deriving DecidableEq, Repr

/-- The in-place property write `source[fieldName] = newValue`. -/
def Source.setField (s : Source) : FieldName → String → Source
  | .filename, v => { s with filename := v }
  | .searchType, v => { s with searchType := v }
  | .sourceName, v => { s with sourceName := v }
  | .sourceIdentifier, v => { s with sourceIdentifier := v }
  | .comment, v => { s with comment := v }

/-- Reading the property `source[fieldName]`. -/
def Source.getField (s : Source) : FieldName → String
  | .filename => s.filename
  | .searchType => s.searchType
  | .sourceName => s.sourceName
  | .sourceIdentifier => s.sourceIdentifier
  | .comment => s.comment

/-- The JavaScript heap visible to the component: allocated `Source` objects
and allocated arrays of source references.  A reference is an index into the
corresponding heap list. -/
structure JsState where
  sourceHeap : List Source
  arrayHeap : List (List Nat)
deriving Repr

/-- Dereference an array: the list of source references it holds. -/
def JsState.getArray (st : JsState) (r : Nat) : List Nat :=
  st.arrayHeap.getD r []

/-- Dereference a source object. -/
def JsState.getSource (st : JsState) (r : Nat) : Source :=
  st.sourceHeap.getD r Source.default

/-- Allocate a fresh array holding `elems`; returns the new heap and the
reference of the new array. -/
def allocArray (st : JsState) (elems : List Nat) : JsState × Nat :=
  ({ st with arrayHeap := st.arrayHeap ++ [elems] }, st.arrayHeap.length)

/-- `sourcesChangedHandler`: `const newSources = [...sources];
sourcesChanged(newSources);` — shallow-copy the sources array into a fresh
array cell and invoke the callback with its reference. -/
def sourcesChangedHandler (st : JsState) (sourcesRef : Nat) : JsState × List Nat :=
  let newSources := st.getArray sourcesRef
  let res := allocArray st newSources
  (res.1, [res.2])

/-- `deleteSourceHandler`: `const newSources = sources.filter((s) => s !== source);
sourcesChanged(newSources);` — `!==` is reference inequality. -/
def deleteSourceHandler (st : JsState) (sourcesRef target : Nat) : JsState × List Nat :=
  let newSources := (st.getArray sourcesRef).filter (fun s => s != target)
  let res := allocArray st newSources
  (res.1, [res.2])

/-- `addSourceHandler`: `const newSources = [...sources, new Source()];
sourcesChanged(newSources);` — allocate a fresh default source, then a fresh
array extending the old one with its reference. -/
def addSourceHandler (st : JsState) (sourcesRef : Nat) : JsState × List Nat :=
  let newSourceRef := st.sourceHeap.length
  let st1 : JsState := { st with sourceHeap := st.sourceHeap ++ [Source.default] }
  let newSources := st.getArray sourcesRef ++ [newSourceRef]
  let res := allocArray st1 newSources
  (res.1, [res.2])

/-- `fieldChangedHandler`: `source[fieldName] = newValue; sourcesChangedHandler();`
— mutate the named field of the referenced source in place, then notify. -/
def fieldChangedHandler (st : JsState) (fn : FieldName) (srcRef : Nat) (v : String)
    (sourcesRef : Nat) : JsState × List Nat :=
  let st1 : JsState :=
    { st with sourceHeap := st.sourceHeap.set srcRef ((st.getSource srcRef).setField fn v) }
  sourcesChangedHandler st1 sourcesRef

/-- `searchParametersScopePathChangedHandler`:
`source.searchParameters.scope.path = newValue; sourcesChangedHandler();`. -/
def searchParametersScopePathChangedHandler (st : JsState) (srcRef : Nat) (v : String)
    (sourcesRef : Nat) : JsState × List Nat :=
  let s := st.getSource srcRef
  let s1 : Source :=
    { s with searchParameters := { s.searchParameters with scope := { s.searchParameters.scope with path := v } } }
  let st1 : JsState := { st with sourceHeap := st.sourceHeap.set srcRef s1 }
  sourcesChangedHandler st1 sourcesRef

/-- The `scriptsChanged` closure passed to the nested `ScriptsEditor`:
`source.loadConversionScript = scripts[0]; sourcesChangedHandler();` —
`scripts[0]` is `undefined` when the reported list is empty. -/
def scriptsChangedHandler (st : JsState) (srcRef : Nat) (scripts : List Script)
    (sourcesRef : Nat) : JsState × List Nat :=
  let s := st.getSource srcRef
  let s1 : Source := { s with loadConversionScript := scripts.head? }
  let st1 : JsState := { st with sourceHeap := st.sourceHeap.set srcRef s1 }
  sourcesChangedHandler st1 sourcesRef

/-- One user action on the component: pressing Add, pressing a delete button,
editing one of the five plain text fields, editing the nested scope path, or
the nested script editor reporting a change. -/
inductive UserAction where
  | add : UserAction
  | delete (target : Nat) : UserAction
  | fieldEdit (fn : FieldName) (srcRef : Nat) (v : String) : UserAction
  | scopeEdit (srcRef : Nat) (v : String) : UserAction
  | scriptChange (srcRef : Nat) (scripts : List Script) : UserAction

/-- Dispatch one user action to the handler the component wires it to. -/
def runAction (st : JsState) (sourcesRef : Nat) : UserAction → JsState × List Nat
  | .add => addSourceHandler st sourcesRef
  | .delete target => deleteSourceHandler st sourcesRef target
  | .fieldEdit fn srcRef v => fieldChangedHandler st fn srcRef v sourcesRef
  | .scopeEdit srcRef v => searchParametersScopePathChangedHandler st srcRef v sourcesRef
  | .scriptChange srcRef scripts => scriptsChangedHandler st srcRef scripts sourcesRef

/-- A small concrete heap used by the witnesses: two distinct source objects
and one sources array holding both. -/
def testState : JsState :=
  { sourceHeap :=
      [ { Source.default with filename := "a.bib" }
      , { Source.default with filename := "b.bib" } ]
    arrayHeap := [[0, 1]] }

/-- A concrete heap with two distinct source objects that are value-equal:
the sources array holds both references. -/
def testStateDup : JsState :=
  { sourceHeap :=
      [ { Source.default with filename := "a.bib" }
      , { Source.default with filename := "a.bib" } ]
    arrayHeap := [[0, 1]] }

/-! ## Helper lemmas -/

theorem getD_set_self_of_lt {α : Type} (l : List α) (i : Nat) (a d : α)
    (h : i < l.length) : (l.set i a).getD i d = a := by
  rw [List.getD_eq_getElem _ _ (by simpa using h)]
  simp [List.getElem_set]

theorem getD_set_ne_idx {α : Type} (l : List α) (i j : Nat) (a d : α)
    (h : i ≠ j) : (l.set i a).getD j d = l.getD j d := by
  by_cases hj : j < l.length
  · rw [List.getD_eq_getElem _ _ (by simpa using hj), List.getD_eq_getElem _ _ hj]
    exact List.getElem_set_ne h _
  · rw [List.getD_eq_default _ _ (by simpa using Nat.le_of_not_lt hj),
        List.getD_eq_default _ _ (Nat.le_of_not_lt hj)]

theorem getD_concat_self {α : Type} (l : List α) (x d : α) :
    (l ++ [x]).getD l.length d = x := by
  rw [List.getD_append_right _ _ _ _ (Nat.le_refl _)]
  simp

theorem getField_setField_self (s : Source) (fn : FieldName) (v : String) :
    (s.setField fn v).getField fn = v := by
  cases fn <;> rfl

theorem getField_setField_ne (s : Source) (fn g : FieldName) (v : String)
    (h : g ≠ fn) : (s.setField fn v).getField g = s.getField g := by
  cases fn <;> cases g <;> simp_all [Source.setField, Source.getField]

theorem setField_searchParameters (s : Source) (fn : FieldName) (v : String) :
    (s.setField fn v).searchParameters = s.searchParameters := by
  cases fn <;> rfl

theorem setField_loadConversionScript (s : Source) (fn : FieldName) (v : String) :
    (s.setField fn v).loadConversionScript = s.loadConversionScript := by
  cases fn <;> rfl

theorem deleteSourceHandler_getArray (st : JsState) (sourcesRef target : Nat) :
    (deleteSourceHandler st sourcesRef target).1.getArray st.arrayHeap.length
      = (st.getArray sourcesRef).filter (fun s => s != target) := by
  show (st.arrayHeap ++ [(st.getArray sourcesRef).filter (fun s => s != target)]).getD
      st.arrayHeap.length [] = _
  exact getD_concat_self _ _ _

/-! ## Claim theorems -/

/-- C1: for every list of sources and every source chosen for deletion, the
delete operation invokes the callback with an array that excludes exactly the
targeted record (all occurrences of its reference are gone, every other
reference keeps its multiplicity) and preserves the relative order of the
remaining records (the result is a sublist of the original). -/
theorem delete_excludes_target_preserves_order (st : JsState) (sourcesRef target : Nat) :
    (deleteSourceHandler st sourcesRef target).2 = [st.arrayHeap.length] ∧
    target ∉ (deleteSourceHandler st sourcesRef target).1.getArray st.arrayHeap.length ∧
    ((deleteSourceHandler st sourcesRef target).1.getArray st.arrayHeap.length).Sublist
      (st.getArray sourcesRef) ∧
    ∀ x, x ≠ target →
      ((deleteSourceHandler st sourcesRef target).1.getArray st.arrayHeap.length).count x
        = (st.getArray sourcesRef).count x := by
  rw [deleteSourceHandler_getArray]
  refine ⟨rfl, ?_, List.filter_sublist _, ?_⟩
  · simp [List.mem_filter]
  · intro x hx
    exact List.count_filter (by simpa using hx)

theorem notify_after_set_calls (st : JsState) (srcRef : Nat) (s1 : Source) (sourcesRef : Nat) :
    (sourcesChangedHandler { st with sourceHeap := st.sourceHeap.set srcRef s1 } sourcesRef).2
      = [st.arrayHeap.length] := rfl

theorem notify_after_set_getArray (st : JsState) (srcRef : Nat) (s1 : Source) (sourcesRef : Nat) :
    (sourcesChangedHandler { st with sourceHeap := st.sourceHeap.set srcRef s1 } sourcesRef).1.getArray
      st.arrayHeap.length = st.getArray sourcesRef := by
  show (st.arrayHeap ++ [st.arrayHeap.getD sourcesRef []]).getD st.arrayHeap.length [] = _
  exact getD_concat_self _ _ _

theorem notify_after_set_getSource_self (st : JsState) (srcRef : Nat) (s1 : Source)
    (sourcesRef : Nat) (h : srcRef < st.sourceHeap.length) :
    (sourcesChangedHandler { st with sourceHeap := st.sourceHeap.set srcRef s1 } sourcesRef).1.getSource
      srcRef = s1 := by
  show (st.sourceHeap.set srcRef s1).getD srcRef Source.default = s1
  exact getD_set_self_of_lt _ _ _ _ h

theorem notify_after_set_getSource_other (st : JsState) (srcRef : Nat) (s1 : Source)
    (sourcesRef : Nat) (r : Nat) (h : r ≠ srcRef) :
    (sourcesChangedHandler { st with sourceHeap := st.sourceHeap.set srcRef s1 } sourcesRef).1.getSource
      r = st.getSource r := by
  show (st.sourceHeap.set srcRef s1).getD r Source.default = st.sourceHeap.getD r Source.default
  exact getD_set_ne_idx _ _ _ _ _ (Ne.symm h)

/-- C2: a field edit overwrites only the named field of the targeted record
with the raw input string, leaves every other record unchanged (same heap
cell contents at every other reference), and notifies the callback with a
shallow copy of the array: a fresh array cell holding exactly the same
element references as the input array. -/
theorem fieldEdit_updates_only_target_field (st : JsState) (fn : FieldName) (srcRef : Nat)
    (v : String) (sourcesRef : Nat) (hsrc : srcRef < st.sourceHeap.length) :
    (fieldChangedHandler st fn srcRef v sourcesRef).2 = [st.arrayHeap.length] ∧
    (fieldChangedHandler st fn srcRef v sourcesRef).1.getArray st.arrayHeap.length
      = st.getArray sourcesRef ∧
    ((fieldChangedHandler st fn srcRef v sourcesRef).1.getSource srcRef).getField fn = v ∧
    (∀ g, g ≠ fn →
      ((fieldChangedHandler st fn srcRef v sourcesRef).1.getSource srcRef).getField g
        = (st.getSource srcRef).getField g) ∧
    ((fieldChangedHandler st fn srcRef v sourcesRef).1.getSource srcRef).searchParameters
      = (st.getSource srcRef).searchParameters ∧
    ((fieldChangedHandler st fn srcRef v sourcesRef).1.getSource srcRef).loadConversionScript
      = (st.getSource srcRef).loadConversionScript ∧
    ∀ r, r ≠ srcRef →
      (fieldChangedHandler st fn srcRef v sourcesRef).1.getSource r = st.getSource r := by
  have hself : (fieldChangedHandler st fn srcRef v sourcesRef).1.getSource srcRef
      = (st.getSource srcRef).setField fn v :=
    notify_after_set_getSource_self st srcRef _ sourcesRef hsrc
  refine ⟨rfl, notify_after_set_getArray st srcRef _ sourcesRef, ?_, ?_, ?_, ?_, ?_⟩
  · rw [hself]; exact getField_setField_self _ _ _
  · intro g hg; rw [hself]; exact getField_setField_ne _ _ _ _ hg
  · rw [hself]; exact setField_searchParameters _ _ _
  · rw [hself]; exact setField_loadConversionScript _ _ _
  · intro r hr; exact notify_after_set_getSource_other st srcRef _ sourcesRef r hr

/-- C3: the add operation notifies the callback with a fresh array whose
prefix is exactly the prior element references in their original order and
whose last element is the reference of one newly allocated default-valued
source; the new reference is not among the prior ones, and every previously
allocated source is unchanged. -/
theorem add_appends_one_default (st : JsState) (sourcesRef : Nat)
    (hvalid : ∀ x ∈ st.getArray sourcesRef, x < st.sourceHeap.length) :
    (addSourceHandler st sourcesRef).2 = [st.arrayHeap.length] ∧
    (addSourceHandler st sourcesRef).1.getArray st.arrayHeap.length
      = st.getArray sourcesRef ++ [st.sourceHeap.length] ∧
    st.sourceHeap.length ∉ st.getArray sourcesRef ∧
    (addSourceHandler st sourcesRef).1.getSource st.sourceHeap.length = Source.default ∧
    ∀ r, r < st.sourceHeap.length →
      (addSourceHandler st sourcesRef).1.getSource r = st.getSource r := by
  refine ⟨rfl, ?_, ?_, ?_, ?_⟩
  · show (st.arrayHeap ++ [st.getArray sourcesRef ++ [st.sourceHeap.length]]).getD
        st.arrayHeap.length [] = _
    exact getD_concat_self _ _ _
  · intro hmem
    exact Nat.lt_irrefl _ (hvalid _ hmem)
  · show (st.sourceHeap ++ [Source.default]).getD st.sourceHeap.length Source.default
        = Source.default
    exact getD_concat_self _ _ _
  · intro r hr
    show (st.sourceHeap ++ [Source.default]).getD r Source.default
        = st.sourceHeap.getD r Source.default
    exact List.getD_append _ _ _ _ hr

/-- C4: every operation of the component is total: for every heap, every
reference and every input string it returns normally, and the returned
callback trace is always a one-element list (there is no error result or
failure branch in any handler). -/
theorem all_operations_total (st : JsState) (sourcesRef target srcRef : Nat)
    (fn : FieldName) (v : String) (scripts : List Script) :
    (∃ r, (addSourceHandler st sourcesRef).2 = [r]) ∧
    (∃ r, (deleteSourceHandler st sourcesRef target).2 = [r]) ∧
    (∃ r, (fieldChangedHandler st fn srcRef v sourcesRef).2 = [r]) ∧
    (∃ r, (searchParametersScopePathChangedHandler st srcRef v sourcesRef).2 = [r]) ∧
    (∃ r, (scriptsChangedHandler st srcRef scripts sourcesRef).2 = [r]) :=
  ⟨⟨_, rfl⟩, ⟨_, rfl⟩, ⟨_, rfl⟩, ⟨_, rfl⟩, ⟨_, rfl⟩⟩

/-- C5: deletion matches by reference equality, not value equality: a record
reference that differs from the target remains in the callback array even
when the object it points to is value-equal to the target's object. -/
theorem delete_matches_by_reference (st : JsState) (sourcesRef target r : Nat)
    (hmem : r ∈ st.getArray sourcesRef) (hne : r ≠ target)
    (_hval : st.getSource r = st.getSource target) :
    r ∈ (deleteSourceHandler st sourcesRef target).1.getArray st.arrayHeap.length := by
  rw [deleteSourceHandler_getArray]
  simp [List.mem_filter, hmem, hne]

/-- C6: the nested scope-path edit sets only `searchParameters.scope.path` of
the targeted record, leaves all its other fields and every other record
unchanged, and notifies the callback with a fresh shallow copy of the array. -/
theorem scopePath_edit_updates_only_path (st : JsState) (srcRef : Nat) (v : String)
    (sourcesRef : Nat) (hsrc : srcRef < st.sourceHeap.length) :
    (searchParametersScopePathChangedHandler st srcRef v sourcesRef).2 = [st.arrayHeap.length] ∧
    ((searchParametersScopePathChangedHandler st srcRef v sourcesRef).1.getSource
      srcRef).searchParameters.scope.path = v ∧
    (∀ g, ((searchParametersScopePathChangedHandler st srcRef v sourcesRef).1.getSource
      srcRef).getField g = (st.getSource srcRef).getField g) ∧
    ((searchParametersScopePathChangedHandler st srcRef v sourcesRef).1.getSource
      srcRef).loadConversionScript = (st.getSource srcRef).loadConversionScript ∧
    (∀ r, r ≠ srcRef →
      (searchParametersScopePathChangedHandler st srcRef v sourcesRef).1.getSource r
        = st.getSource r) ∧
    (searchParametersScopePathChangedHandler st srcRef v sourcesRef).1.getArray
      st.arrayHeap.length = st.getArray sourcesRef := by
  have hself : (searchParametersScopePathChangedHandler st srcRef v sourcesRef).1.getSource srcRef
      = { st.getSource srcRef with
          searchParameters := { (st.getSource srcRef).searchParameters with
            scope := { (st.getSource srcRef).searchParameters.scope with path := v } } } :=
    notify_after_set_getSource_self st srcRef _ sourcesRef hsrc
  refine ⟨rfl, ?_, ?_, ?_, ?_, notify_after_set_getArray st srcRef _ sourcesRef⟩
  · rw [hself]
  · intro g; rw [hself]; cases g <;> rfl
  · rw [hself]
  · intro r hr; exact notify_after_set_getSource_other st srcRef _ sourcesRef r hr

/-- C7: for every operation the array handed to the callback is a newly
allocated array: its reference is the allocation index `st.arrayHeap.length`,
which differs from any valid input array reference; for the three edit
operations the fresh array wraps exactly the same element references as the
input sources array. -/
theorem callback_array_is_fresh (st : JsState) (sourcesRef target srcRef : Nat)
    (fn : FieldName) (v : String) (scripts : List Script)
    (href : sourcesRef < st.arrayHeap.length) :
    st.arrayHeap.length ≠ sourcesRef ∧
    (addSourceHandler st sourcesRef).2 = [st.arrayHeap.length] ∧
    (deleteSourceHandler st sourcesRef target).2 = [st.arrayHeap.length] ∧
    (fieldChangedHandler st fn srcRef v sourcesRef).2 = [st.arrayHeap.length] ∧
    (searchParametersScopePathChangedHandler st srcRef v sourcesRef).2
      = [st.arrayHeap.length] ∧
    (scriptsChangedHandler st srcRef scripts sourcesRef).2 = [st.arrayHeap.length] ∧
    (fieldChangedHandler st fn srcRef v sourcesRef).1.getArray st.arrayHeap.length
      = st.getArray sourcesRef ∧
    (searchParametersScopePathChangedHandler st srcRef v sourcesRef).1.getArray
      st.arrayHeap.length = st.getArray sourcesRef ∧
    (scriptsChangedHandler st srcRef scripts sourcesRef).1.getArray st.arrayHeap.length
      = st.getArray sourcesRef :=
  ⟨Nat.ne_of_gt href, rfl, rfl, rfl, rfl, rfl,
    notify_after_set_getArray st srcRef _ sourcesRef,
    notify_after_set_getArray st srcRef _ sourcesRef,
    notify_after_set_getArray st srcRef _ sourcesRef⟩

/-- C8: every single user action — one add, one delete, one field edit, one
scope-path edit, or one script change — invokes the change-notification
callback exactly once. -/
theorem callback_invoked_exactly_once (st : JsState) (sourcesRef : Nat) (a : UserAction) :
    (runAction st sourcesRef a).2.length = 1 := by
  cases a <;> rfl

/-- C9: deleting a target that is not an element of the sources array still
invokes the callback exactly once, with a fresh array holding exactly the
original element references in their original order. -/
theorem delete_nonmember_is_noop_copy (st : JsState) (sourcesRef target : Nat)
    (h : target ∉ st.getArray sourcesRef) :
    (deleteSourceHandler st sourcesRef target).2 = [st.arrayHeap.length] ∧
    (deleteSourceHandler st sourcesRef target).1.getArray st.arrayHeap.length
      = st.getArray sourcesRef := by
  refine ⟨rfl, ?_⟩
  rw [deleteSourceHandler_getArray]
  apply List.filter_eq_self.mpr
  intro x hx
  simp only [bne_iff_ne, ne_eq, decide_eq_true_eq]
  rintro rfl
  exact h hx

/-- C10: when the nested script editor reports a changed script list, the
targeted record's `loadConversionScript` becomes exactly the head of the
reported list (absent when the list is empty), no other field of the record
and no other record changes, and the callback is invoked exactly once. -/
theorem scriptChange_sets_head_only (st : JsState) (srcRef : Nat) (scripts : List Script)
    (sourcesRef : Nat) (hsrc : srcRef < st.sourceHeap.length) :
    (scriptsChangedHandler st srcRef scripts sourcesRef).2 = [st.arrayHeap.length] ∧
    ((scriptsChangedHandler st srcRef scripts sourcesRef).1.getSource
      srcRef).loadConversionScript = scripts.head? ∧
    (scripts = [] →
      ((scriptsChangedHandler st srcRef scripts sourcesRef).1.getSource
        srcRef).loadConversionScript = none) ∧
    (∀ g, ((scriptsChangedHandler st srcRef scripts sourcesRef).1.getSource srcRef).getField g
      = (st.getSource srcRef).getField g) ∧
    ((scriptsChangedHandler st srcRef scripts sourcesRef).1.getSource srcRef).searchParameters
      = (st.getSource srcRef).searchParameters ∧
    ∀ r, r ≠ srcRef →
      (scriptsChangedHandler st srcRef scripts sourcesRef).1.getSource r = st.getSource r := by
  have hself : (scriptsChangedHandler st srcRef scripts sourcesRef).1.getSource srcRef
      = { st.getSource srcRef with loadConversionScript := scripts.head? } :=
    notify_after_set_getSource_self st srcRef _ sourcesRef hsrc
  refine ⟨rfl, ?_, ?_, ?_, ?_, ?_⟩
  · rw [hself]
  · intro he; rw [hself, he]; rfl
  · intro g; rw [hself]; cases g <;> rfl
  · rw [hself]
  · intro r hr; exact notify_after_set_getSource_other st srcRef _ sourcesRef r hr

/-! ## Witnesses -/

/-- Witness for C2 at a concrete heap: editing `filename` of source 0. -/
theorem fieldEdit_updates_only_target_field_witness :
    0 < testState.sourceHeap.length ∧
    ((fieldChangedHandler testState FieldName.filename 0 "x" 0).2
        = [testState.arrayHeap.length] ∧
      (fieldChangedHandler testState FieldName.filename 0 "x" 0).1.getArray
        testState.arrayHeap.length = testState.getArray 0 ∧
      ((fieldChangedHandler testState FieldName.filename 0 "x" 0).1.getSource 0).getField
        FieldName.filename = "x" ∧
      (∀ g, g ≠ FieldName.filename →
        ((fieldChangedHandler testState FieldName.filename 0 "x" 0).1.getSource 0).getField g
          = (testState.getSource 0).getField g) ∧
      ((fieldChangedHandler testState FieldName.filename 0 "x" 0).1.getSource
        0).searchParameters = (testState.getSource 0).searchParameters ∧
      ((fieldChangedHandler testState FieldName.filename 0 "x" 0).1.getSource
        0).loadConversionScript = (testState.getSource 0).loadConversionScript ∧
      ∀ r, r ≠ 0 →
        (fieldChangedHandler testState FieldName.filename 0 "x" 0).1.getSource r
          = testState.getSource r) :=
  ⟨by decide, fieldEdit_updates_only_target_field testState FieldName.filename 0 "x" 0 (by decide)⟩

/-- Witness for C3 at a concrete heap. -/
theorem add_appends_one_default_witness :
    (∀ x ∈ testState.getArray 0, x < testState.sourceHeap.length) ∧
    ((addSourceHandler testState 0).2 = [testState.arrayHeap.length] ∧
      (addSourceHandler testState 0).1.getArray testState.arrayHeap.length
        = testState.getArray 0 ++ [testState.sourceHeap.length] ∧
      testState.sourceHeap.length ∉ testState.getArray 0 ∧
      (addSourceHandler testState 0).1.getSource testState.sourceHeap.length
        = Source.default ∧
      ∀ r, r < testState.sourceHeap.length →
        (addSourceHandler testState 0).1.getSource r = testState.getSource r) :=
  ⟨by decide, add_appends_one_default testState 0 (by decide)⟩

/-- Witness for C5 at a concrete heap: sources 0 and 1 are value-equal
distinct objects; deleting source 0 keeps reference 1. -/
theorem delete_matches_by_reference_witness :
    1 ∈ testStateDup.getArray 0 ∧ (1 : Nat) ≠ 0 ∧
    testStateDup.getSource 1 = testStateDup.getSource 0 ∧
    1 ∈ (deleteSourceHandler testStateDup 0 0).1.getArray testStateDup.arrayHeap.length :=
  ⟨by decide, by decide, by decide,
    delete_matches_by_reference testStateDup 0 0 1 (by decide) (by decide) (by decide)⟩

/-- Witness for C6 at a concrete heap. -/
theorem scopePath_edit_updates_only_path_witness :
    0 < testState.sourceHeap.length ∧
    ((searchParametersScopePathChangedHandler testState 0 "p" 0).2
        = [testState.arrayHeap.length] ∧
      ((searchParametersScopePathChangedHandler testState 0 "p" 0).1.getSource
        0).searchParameters.scope.path = "p" ∧
      (∀ g, ((searchParametersScopePathChangedHandler testState 0 "p" 0).1.getSource
        0).getField g = (testState.getSource 0).getField g) ∧
      ((searchParametersScopePathChangedHandler testState 0 "p" 0).1.getSource
        0).loadConversionScript = (testState.getSource 0).loadConversionScript ∧
      (∀ r, r ≠ 0 →
        (searchParametersScopePathChangedHandler testState 0 "p" 0).1.getSource r
          = testState.getSource r) ∧
      (searchParametersScopePathChangedHandler testState 0 "p" 0).1.getArray
        testState.arrayHeap.length = testState.getArray 0) :=
  ⟨by decide, scopePath_edit_updates_only_path testState 0 "p" 0 (by decide)⟩

/-- Witness for C7 at a concrete heap. -/
theorem callback_array_is_fresh_witness :
    0 < testState.arrayHeap.length ∧
    (testState.arrayHeap.length ≠ 0 ∧
      (addSourceHandler testState 0).2 = [testState.arrayHeap.length] ∧
      (deleteSourceHandler testState 0 1).2 = [testState.arrayHeap.length] ∧
      (fieldChangedHandler testState FieldName.comment 0 "y" 0).2
        = [testState.arrayHeap.length] ∧
      (searchParametersScopePathChangedHandler testState 0 "y" 0).2
        = [testState.arrayHeap.length] ∧
      (scriptsChangedHandler testState 0 [] 0).2 = [testState.arrayHeap.length] ∧
      (fieldChangedHandler testState FieldName.comment 0 "y" 0).1.getArray
        testState.arrayHeap.length = testState.getArray 0 ∧
      (searchParametersScopePathChangedHandler testState 0 "y" 0).1.getArray
        testState.arrayHeap.length = testState.getArray 0 ∧
      (scriptsChangedHandler testState 0 [] 0).1.getArray testState.arrayHeap.length
        = testState.getArray 0) :=
  ⟨by decide, callback_array_is_fresh testState 0 1 0 FieldName.comment "y" [] (by decide)⟩

/-- Witness for C9 at a concrete heap: reference 5 is not in the array. -/
theorem delete_nonmember_is_noop_copy_witness :
    (5 : Nat) ∉ testState.getArray 0 ∧
    ((deleteSourceHandler testState 0 5).2 = [testState.arrayHeap.length] ∧
      (deleteSourceHandler testState 0 5).1.getArray testState.arrayHeap.length
        = testState.getArray 0) :=
  ⟨by decide, delete_nonmember_is_noop_copy testState 0 5 (by decide)⟩

/-- Witness for C10 at a concrete heap: the nested editor reports one script. -/
theorem scriptChange_sets_head_only_witness :
    0 < testState.sourceHeap.length ∧
    ((scriptsChangedHandler testState 0 [Script.mk 7] 0).2 = [testState.arrayHeap.length] ∧
      ((scriptsChangedHandler testState 0 [Script.mk 7] 0).1.getSource
        0).loadConversionScript = [Script.mk 7].head? ∧
      ([Script.mk 7] = ([] : List Script) →
        ((scriptsChangedHandler testState 0 [Script.mk 7] 0).1.getSource
          0).loadConversionScript = none) ∧
      (∀ g, ((scriptsChangedHandler testState 0 [Script.mk 7] 0).1.getSource 0).getField g
        = (testState.getSource 0).getField g) ∧
      ((scriptsChangedHandler testState 0 [Script.mk 7] 0).1.getSource 0).searchParameters
        = (testState.getSource 0).searchParameters ∧
      ∀ r, r ≠ 0 →
        (scriptsChangedHandler testState 0 [Script.mk 7] 0).1.getSource r
          = testState.getSource r) :=
  ⟨by decide, scriptChange_sets_head_only testState 0 [Script.mk 7] 0 (by decide)⟩
